import Mathlib

/-!
Verification development for the frame codec and abstraction layer of the
quic-tracker repository.

Part 1 models the frame codec (package masterthesis, frames file): every
frame variant, its serializer (writeTo) and its decoder (the New*/Read*
constructors), plus the NewFrame dispatcher.

Byte sources are modelled as `List Nat` (each element one byte value); a
decoder consumes bytes from the front of the list and returns the decoded
frame together with the remaining bytes, mirroring the cursor of the
bytes.Reader in the source.  Errors that the source discards with the
blank identifier are modelled exactly as the source behaves: the
destination keeps its previous value.
-/

/-- Big-endian value of a byte list, as binary.Read computes it. -/
def beVal (bs : List Nat) : Nat := bs.foldl (fun a b => a * 256 + b) 0

/-- Big-endian fixed-width byte encoding, as binary.Write produces it. -/
def beBytes : Nat → Nat → List Nat
  | 0, _ => []
  | w + 1, v => beBytes w (v / 256) ++ [v % 256]

/-- Modelled from the spec: the QUIC variable-length integer codec is an
external collaborator (ReadVarInt is not part of these source files).  The
two most significant bits of the first byte select a total length of
1, 2, 4 or 8 bytes; the remaining bits hold the big-endian value.  On an
empty source the decoder reports failure with value 0; a source truncated
inside the varint also fails.  Result: (value, ok, remaining bytes). -/
def ReadVarInt (s : List Nat) : Nat × Bool × List Nat :=
  match s with
  | [] => (0, false, [])
  | b :: rest =>
    let len := 2 ^ (b / 64 % 4)
    if len - 1 ≤ rest.length then
      (((b % 64) :: rest.take (len - 1)).foldl (fun a x => a * 256 + x) 0,
        true, rest.drop (len - 1))
    else (0, false, rest.drop (len - 1))

/-- Modelled from the spec: WriteVarInt (external collaborator) emits the
shortest of the four QUIC varint forms that holds the value. -/
def WriteVarInt (v : Nat) : List Nat :=
  if v < 64 then [v]
  else if v < 16384 then [64 + v / 256, v % 256]
  else if v < 2 ^ 30 then
    [128 + v / 2 ^ 24, v / 2 ^ 16 % 256, v / 2 ^ 8 % 256, v % 256]
  else
    [192 + v / 2 ^ 56 % 64, v / 2 ^ 48 % 256, v / 2 ^ 40 % 256,
      v / 2 ^ 32 % 256, v / 2 ^ 24 % 256, v / 2 ^ 16 % 256,
      v / 2 ^ 8 % 256, v % 256]

/-- binary.Read of an n-byte big-endian integer: on success the value is
taken from the source; on a short source the error is returned (and here
discarded by every caller), the destination keeps its old value, and the
available bytes are still consumed. -/
def binReadN (n : Nat) (old : Nat) (s : List Nat) : Nat × List Nat :=
  if n ≤ s.length then (beVal (s.take n), s.drop n) else (old, s.drop n)

/-- binary.Read into a fixed-size byte array or sized byte slice: same
failure behaviour as binReadN, keeping the zero-initialized old contents. -/
def binReadBytes (n : Nat) (old : List Nat) (s : List Nat) : List Nat × List Nat :=
  if n ≤ s.length then (s.take n, s.drop n) else (old, s.drop n)

/-- bytes.Reader.Read into a fresh zero-filled buffer of size n: fills as
many leading bytes as are available, leaves the rest zero. -/
def readerRead (n : Nat) (s : List Nat) : List Nat × List Nat :=
  (s.take n ++ List.replicate (n - s.length) 0, s.drop n)

/-- bytes.Reader.ReadByte: on an exhausted source Go returns byte 0 with
io.EOF; every caller here discards the error and keeps the 0. -/
def readByteD (s : List Nat) : Nat × List Nat :=
  match s with
  | [] => (0, [])
  | b :: rest => (b, rest)

/- Frame type tag constants, from the source. -/
def PaddingFrameType : Nat := 0x00
def ResetStreamType : Nat := 0x01
def ConnectionCloseType : Nat := 0x02
def ApplicationCloseType : Nat := 0x03
def MaxDataType : Nat := 0x04
def MaxStreamDataType : Nat := 0x05
def MaxStreamIdType : Nat := 0x06
def PingType : Nat := 0x07
def BlockedType : Nat := 0x08
def StreamBlockedType : Nat := 0x09
def StreamIdBlockedType : Nat := 0x0a
def NewConnectionIdType : Nat := 0x0b
def StopSendingType : Nat := 0x0c
def PongType : Nat := 0x0d
def AckType : Nat := 0x0e
def StreamType : Nat := 0x10

/-- type PaddingFrame byte (always the zero byte from new(PaddingFrame)). -/
structure PaddingFrame where
  val : Nat
deriving DecidableEq

def PaddingFrame.writeTo (_ : PaddingFrame) : List Nat := [PaddingFrameType]

def NewPaddingFrame (s : List Nat) : PaddingFrame × List Nat :=
  (⟨0⟩, s.drop 1)

structure ResetStream where
  streamId : Nat
  errorCode : Nat
  finalOffset : Nat
deriving DecidableEq

def ResetStream.writeTo (f : ResetStream) : List Nat :=
  [ResetStreamType] ++ WriteVarInt f.streamId ++ beBytes 2 f.errorCode
    ++ WriteVarInt f.finalOffset

def NewResetStream (s : List Nat) : ResetStream × List Nat :=
  let s1 := s.drop 1
  let r1 := ReadVarInt s1
  let r2 := binReadN 2 0 r1.2.2
  let r3 := ReadVarInt r2.2
  (⟨r1.1, r2.1, r3.1⟩, r3.2.2)

structure ConnectionCloseFrame where
  errorCode : Nat
  reasonPhraseLength : Nat
  reasonPhrase : List Nat
deriving DecidableEq

def ConnectionCloseFrame.writeTo (f : ConnectionCloseFrame) : List Nat :=
  [ConnectionCloseType] ++ beBytes 2 f.errorCode
    ++ WriteVarInt f.reasonPhraseLength
    ++ (if f.reasonPhraseLength > 0 then f.reasonPhrase else [])

def NewConnectionCloseFrame (s : List Nat) : ConnectionCloseFrame × List Nat :=
  let s1 := s.drop 1
  let r1 := binReadN 2 0 s1
  let r2 := ReadVarInt r1.2
  if r2.1 > 0 then
    let r3 := binReadBytes r2.1 (List.replicate r2.1 0) r2.2.2
    (⟨r1.1, r2.1, r3.1⟩, r3.2)
  else (⟨r1.1, r2.1, []⟩, r2.2.2)

structure ApplicationCloseFrame where
  errorCode : Nat
  reasonPhraseLength : Nat
  reasonPhrase : List Nat
deriving DecidableEq

/-- Note the source writes reasonPhraseLength with binary.Write, i.e. as a
fixed 8-byte big-endian integer, unlike the sibling frame above. -/
def ApplicationCloseFrame.writeTo (f : ApplicationCloseFrame) : List Nat :=
  [ApplicationCloseType] ++ beBytes 2 f.errorCode
    ++ beBytes 8 f.reasonPhraseLength
    ++ (if f.reasonPhraseLength > 0 then f.reasonPhrase else [])

def NewApplicationCloseFrame (s : List Nat) : ApplicationCloseFrame × List Nat :=
  let s1 := s.drop 1
  let r1 := binReadN 2 0 s1
  let r2 := ReadVarInt r1.2
  if r2.1 > 0 then
    let r3 := binReadBytes r2.1 (List.replicate r2.1 0) r2.2.2
    (⟨r1.1, r2.1, r3.1⟩, r3.2)
  else (⟨r1.1, r2.1, []⟩, r2.2.2)

structure MaxDataFrame where
  maximumData : Nat
deriving DecidableEq

def MaxDataFrame.writeTo (f : MaxDataFrame) : List Nat :=
  [MaxDataType] ++ WriteVarInt f.maximumData

/-- The source first reads maximumData as a varint and then immediately
issues binary.Read into the same field, overwriting it with a fixed
8-byte big-endian read whenever 8 more bytes are available (on a shorter
source binary.Read fails and the varint value survives). -/
def NewMaxDataFrame (s : List Nat) : MaxDataFrame × List Nat :=
  let s1 := s.drop 1
  let r1 := ReadVarInt s1
  let r2 := binReadN 8 r1.1 r1.2.2
  (⟨r2.1⟩, r2.2)

structure MaxStreamDataFrame where
  streamId : Nat
  maximumStreamData : Nat
deriving DecidableEq

def MaxStreamDataFrame.writeTo (f : MaxStreamDataFrame) : List Nat :=
  [MaxStreamDataType] ++ WriteVarInt f.streamId ++ WriteVarInt f.maximumStreamData

def NewMaxStreamDataFrame (s : List Nat) : MaxStreamDataFrame × List Nat :=
  let s1 := s.drop 1
  let r1 := ReadVarInt s1
  let r2 := ReadVarInt r1.2.2
  (⟨r1.1, r2.1⟩, r2.2.2)

structure MaxStreamIdFrame where
  maximumStreamId : Nat
deriving DecidableEq

def MaxStreamIdFrame.writeTo (f : MaxStreamIdFrame) : List Nat :=
  [MaxStreamIdType] ++ WriteVarInt f.maximumStreamId

def NewMaxStreamIdFrame (s : List Nat) : MaxStreamIdFrame × List Nat :=
  let s1 := s.drop 1
  let r1 := ReadVarInt s1
  (⟨r1.1⟩, r1.2.2)

structure PingFrame where
  length : Nat
  data : List Nat
deriving DecidableEq

def PingFrame.writeTo (f : PingFrame) : List Nat :=
  [PingType] ++ [f.length % 256] ++ (if f.length > 0 then f.data else [])

def NewPingFrame (s : List Nat) : PingFrame × List Nat :=
  let s1 := s.drop 1
  let r1 := readByteD s1
  if r1.1 > 0 then
    let r2 := readerRead r1.1 r1.2
    (⟨r1.1, r2.1⟩, r2.2)
  else (⟨r1.1, []⟩, r1.2)

structure BlockedFrame where
  offset : Nat
deriving DecidableEq

def BlockedFrame.writeTo (f : BlockedFrame) : List Nat :=
  [BlockedType] ++ WriteVarInt f.offset

def NewBlockedFrame (s : List Nat) : BlockedFrame × List Nat :=
  let s1 := s.drop 1
  let r1 := ReadVarInt s1
  (⟨r1.1⟩, r1.2.2)

structure StreamBlockedFrame where
  streamId : Nat
  offset : Nat
deriving DecidableEq

def StreamBlockedFrame.writeTo (f : StreamBlockedFrame) : List Nat :=
  [StreamBlockedType] ++ WriteVarInt f.streamId ++ WriteVarInt f.offset

def NewStreamBlockedFrame (s : List Nat) : StreamBlockedFrame × List Nat :=
  let s1 := s.drop 1
  let r1 := ReadVarInt s1
  let r2 := ReadVarInt r1.2.2
  (⟨r1.1, r2.1⟩, r2.2.2)

structure StreamIdBlockedFrame where
  streamId : Nat
deriving DecidableEq

def StreamIdBlockedFrame.writeTo (f : StreamIdBlockedFrame) : List Nat :=
  [StreamIdBlockedType] ++ WriteVarInt f.streamId

def NewStreamIdNeededFrame (s : List Nat) : StreamIdBlockedFrame × List Nat :=
  let s1 := s.drop 1
  let r1 := ReadVarInt s1
  (⟨r1.1⟩, r1.2.2)

structure NewConnectionIdFrame where
  sequence : Nat
  connectionId : Nat
  statelessResetToken : List Nat
deriving DecidableEq

def NewConnectionIdFrame.writeTo (f : NewConnectionIdFrame) : List Nat :=
  [NewConnectionIdType] ++ WriteVarInt f.sequence ++ WriteVarInt f.connectionId
    ++ f.statelessResetToken

def NewNewConnectionIdFrame (s : List Nat) : NewConnectionIdFrame × List Nat :=
  let s1 := s.drop 1
  let r1 := ReadVarInt s1
  let r2 := ReadVarInt r1.2.2
  let r3 := binReadBytes 16 (List.replicate 16 0) r2.2.2
  (⟨r1.1, r2.1, r3.1⟩, r3.2)

structure StopSendingFrame where
  streamId : Nat
  errorCode : Nat
deriving DecidableEq

def StopSendingFrame.writeTo (f : StopSendingFrame) : List Nat :=
  [StopSendingType] ++ WriteVarInt f.streamId ++ beBytes 2 f.errorCode

def NewStopSendingFrame (s : List Nat) : StopSendingFrame × List Nat :=
  let s1 := s.drop 1
  let r1 := ReadVarInt s1
  let r2 := binReadN 2 0 r1.2.2
  (⟨r1.1, r2.1⟩, r2.2)

/-- PongFrame embeds PingFrame in the source. -/
structure PongFrame where
  length : Nat
  data : List Nat
deriving DecidableEq

/-- The serializer of PongFrame is the method promoted from the embedded
PingFrame, whose receiver is the embedded PingFrame value; its call to
FrameType() therefore resolves to PingFrame.FrameType and writes the Ping
tag byte 0x07, not 0x0d. -/
def PongFrame.writeTo (f : PongFrame) : List Nat :=
  PingFrame.writeTo ⟨f.length, f.data⟩

def NewPongFrame (s : List Nat) : PongFrame × List Nat :=
  let s1 := s.drop 1
  let r1 := readByteD s1
  if r1.1 > 0 then
    let r2 := readerRead r1.1 r1.2
    (⟨r1.1, r2.1⟩, r2.2)
  else (⟨r1.1, []⟩, r1.2)

structure AckBlock where
  gap : Nat
  block : Nat
deriving DecidableEq

structure AckFrame where
  largestAcknowledged : Nat
  ackDelay : Nat
  ackBlockCount : Nat
  ackBlocks : List AckBlock
deriving DecidableEq

/-- The serializer writes the gap of every block except the first. -/
def ackBlocksBytes : Bool → List AckBlock → List Nat
  | _, [] => []
  | first, b :: rest =>
    (if first then [] else WriteVarInt b.gap) ++ WriteVarInt b.block
      ++ ackBlocksBytes false rest

def AckFrame.writeTo (f : AckFrame) : List Nat :=
  [AckType] ++ WriteVarInt f.largestAcknowledged ++ WriteVarInt f.ackDelay
    ++ WriteVarInt f.ackBlockCount ++ ackBlocksBytes true f.ackBlocks

def readAckBlocksLoop : Nat → List Nat → List AckBlock × List Nat
  | 0, s => ([], s)
  | n + 1, s =>
    let r1 := ReadVarInt s
    let r2 := ReadVarInt r1.2.2
    let rest := readAckBlocksLoop n r2.2.2
    (⟨r1.1, r2.1⟩ :: rest.1, rest.2)

/-- The decoder reads one unconditional first block length and discards it;
only the ackBlockCount subsequent (gap, block) pairs are kept. -/
def ReadAckFrame (s : List Nat) : AckFrame × List Nat :=
  let s1 := s.drop 1
  let r1 := ReadVarInt s1
  let r2 := ReadVarInt r1.2.2
  let r3 := ReadVarInt r2.2.2
  let rFirst := ReadVarInt r3.2.2
  let blocks := readAckBlocksLoop r3.1 rFirst.2.2
  (⟨r1.1, r2.1, r3.1, blocks.1⟩, blocks.2)

structure StreamFrame where
  finBit : Bool
  lenBit : Bool
  offBit : Bool
  streamId : Nat
  offset : Nat
  length : Nat
  streamData : List Nat
deriving DecidableEq

def StreamFrame.writeTo (f : StreamFrame) : List Nat :=
  [StreamType + (if f.finBit then 1 else 0) + (if f.lenBit then 2 else 0)
      + (if f.offBit then 4 else 0)]
    ++ WriteVarInt f.streamId
    ++ (if f.offBit then WriteVarInt f.offset else [])
    ++ (if f.lenBit then WriteVarInt f.length else [])
    ++ f.streamData

/-- The decoder parses the flag bits, the stream id and the optional offset
and length fields, then returns without consuming or storing any payload
bytes (streamData stays nil).  The conn parameter of the source is unused
while parsing and is omitted. -/
def ReadStreamFrame (s : List Nat) : StreamFrame × List Nat :=
  let r0 := readByteD s
  let finBit := r0.1 % 2 = 1
  let lenBit := r0.1 / 2 % 2 = 1
  let offBit := r0.1 / 4 % 2 = 1
  let r1 := ReadVarInt r0.2
  let r2 := if offBit then ReadVarInt r1.2.2 else (0, true, r1.2.2)
  let r3 := if lenBit then ReadVarInt r2.2.2 else (0, true, r2.2.2)
  (⟨finBit, lenBit, offBit, r1.1, r2.1, r3.1, []⟩, r3.2.2)

/-- The closed union of frame variants, as returned by the dispatcher. -/
inductive FrameV
  | padding : PaddingFrame → FrameV
  | reset : ResetStream → FrameV
  | connClose : ConnectionCloseFrame → FrameV
  | appClose : ApplicationCloseFrame → FrameV
  | maxData : MaxDataFrame → FrameV
  | maxStreamData : MaxStreamDataFrame → FrameV
  | maxStreamId : MaxStreamIdFrame → FrameV
  | ping : PingFrame → FrameV
  | blocked : BlockedFrame → FrameV
  | streamBlocked : StreamBlockedFrame → FrameV
  | streamIdBlocked : StreamIdBlockedFrame → FrameV
  | newConnectionId : NewConnectionIdFrame → FrameV
  | stopSending : StopSendingFrame → FrameV
  | pong : PongFrame → FrameV
  | ack : AckFrame → FrameV
  | stream : StreamFrame → FrameV
deriving DecidableEq

/-- Outcome of NewFrame: nil on a source exhausted before the frame starts,
a panic on an unknown type byte, or a decoded frame with the rest of the
enclosing packet. -/
inductive NewFrameResult
  | nilEOF
  | unknownPanic : Nat → NewFrameResult
  | ok : FrameV → List Nat → NewFrameResult
deriving DecidableEq

/-- NewFrame peeks the next byte (returning nil when the source is already
exhausted), then dispatches on it exactly as the switch in the source:
equality against each fixed tag constant (PongType has no case), then the
stream bitmask test, then a panic for anything else. -/
def NewFrame (s : List Nat) : NewFrameResult :=
  match s with
  | [] => .nilEOF
  | b :: _ =>
    if b = PaddingFrameType then .ok (.padding (NewPaddingFrame s).1) (NewPaddingFrame s).2
    else if b = ResetStreamType then .ok (.reset (NewResetStream s).1) (NewResetStream s).2
    else if b = ConnectionCloseType then .ok (.connClose (NewConnectionCloseFrame s).1) (NewConnectionCloseFrame s).2
    else if b = ApplicationCloseType then .ok (.appClose (NewApplicationCloseFrame s).1) (NewApplicationCloseFrame s).2
    else if b = MaxDataType then .ok (.maxData (NewMaxDataFrame s).1) (NewMaxDataFrame s).2
    else if b = MaxStreamDataType then .ok (.maxStreamData (NewMaxStreamDataFrame s).1) (NewMaxStreamDataFrame s).2
    else if b = MaxStreamIdType then .ok (.maxStreamId (NewMaxStreamIdFrame s).1) (NewMaxStreamIdFrame s).2
    else if b = PingType then .ok (.ping (NewPingFrame s).1) (NewPingFrame s).2
    else if b = BlockedType then .ok (.blocked (NewBlockedFrame s).1) (NewBlockedFrame s).2
    else if b = StreamBlockedType then .ok (.streamBlocked (NewStreamBlockedFrame s).1) (NewStreamBlockedFrame s).2
    else if b = StreamIdBlockedType then .ok (.streamIdBlocked (NewStreamIdNeededFrame s).1) (NewStreamIdNeededFrame s).2
    else if b = NewConnectionIdType then .ok (.newConnectionId (NewNewConnectionIdFrame s).1) (NewNewConnectionIdFrame s).2
    else if b = StopSendingType then .ok (.stopSending (NewStopSendingFrame s).1) (NewStopSendingFrame s).2
    else if b = AckType then .ok (.ack (ReadAckFrame s).1) (ReadAckFrame s).2
    else if b % 32 / 16 = 1 then .ok (.stream (ReadStreamFrame s).1) (ReadStreamFrame s).2
    else .unknownPanic b

/-!
Part 2 models the abstraction layer: the adapter package with
AbstractSymbol, AbstractSet, AbstractOrderedPair, their canonical text
forms and the parser NewAbstractSymbolFromString, plus the
AbstractConcreteMap.  Text is modelled as `List Char`.  A decoder or
stringifier that panics in Go is modelled as returning `none`.
-/

/-- The closed packet-type vocabulary of the adapter (the keys of the
packetTypeToString map in the source). -/
inductive PacketType
  | VersionNegotiation
  | Initial
  | Retry
  | Handshake
  | ZeroRTTProtected
  | ShortHeaderPacket
deriving DecidableEq

/-- packetTypeToString from the source. -/
def packetTypeToString : PacketType → List Char
  | .VersionNegotiation => "VERNEG".toList
  | .Initial => "INITIAL".toList
  | .Retry => "RETRY".toList
  | .Handshake => "HANDSHAKE".toList
  | .ZeroRTTProtected => "ZERO".toList
  | .ShortHeaderPacket => "SHORT".toList

/-- stringToPacketType from the source, as an association list. -/
def stringToPacketTypeList : List (List Char × PacketType) :=
  [("VERNEG".toList, .VersionNegotiation), ("INITIAL".toList, .Initial),
   ("RETRY".toList, .Retry), ("HANDSHAKE".toList, .Handshake),
   ("ZERO".toList, .ZeroRTTProtected), ("SHORT".toList, .ShortHeaderPacket)]

/-- Modelled from the spec: a Go map lookup of a missing key yields the
zero value of the value type; the numeric packet-type constants live
outside these source files, so the zero value is modelled as the first
vocabulary element. -/
def goZeroPacketType : PacketType := .VersionNegotiation

/-- Association list lookup with list-of-characters keys. -/
def lookupStr {α : Type} (key : List Char) : List (List Char × α) → Option α
  | [] => none
  | (k, v) :: rest => if key = k then some v else lookupStr key rest

/-- Association list lookup with numeric keys. -/
def lookupTag (key : Nat) : List (Nat × List Char) → Option (List Char)
  | [] => none
  | (k, v) :: rest => if key = k then some v else lookupTag key rest

/-- Modelled from the spec: the names of the sixteen frame-type tags of
the wire format, the closed vocabulary of uppercase frame-type names used
in the canonical text (the FrameType stringer and FrameTypeFromString are
outside these source files). -/
def ftNames : List (Nat × List Char) :=
  [(PaddingFrameType, "PADDING".toList), (ResetStreamType, "RESETSTREAM".toList),
   (ConnectionCloseType, "CONNECTIONCLOSE".toList),
   (ApplicationCloseType, "APPLICATIONCLOSE".toList),
   (MaxDataType, "MAXDATA".toList), (MaxStreamDataType, "MAXSTREAMDATA".toList),
   (MaxStreamIdType, "MAXSTREAMID".toList), (PingType, "PING".toList),
   (BlockedType, "BLOCKED".toList), (StreamBlockedType, "STREAMBLOCKED".toList),
   (StreamIdBlockedType, "STREAMIDBLOCKED".toList),
   (NewConnectionIdType, "NEWCONNECTIONID".toList),
   (StopSendingType, "STOPSENDING".toList), (PongType, "PONG".toList),
   (AckType, "ACK".toList), (StreamType, "STREAM".toList)]

/-- The sixteen known frame-type tag values. -/
def knownTags : List Nat := ftNames.map (fun x => x.1)

/-- Name of a frame-type tag (empty for a tag outside the vocabulary). -/
def ftName (t : Nat) : List Char := (lookupTag t ftNames).getD []

/-- Modelled from the spec: FrameTypeFromString maps a frame-type name
back to its tag; an unknown name yields the zero FrameType, which by the
constants of the source is 0x00, the padding tag. -/
def FrameTypeFromString (cs : List Char) : Nat :=
  (lookupStr cs (ftNames.map (fun x => (x.2, x.1)))).getD 0

/-- mapset.Set.Add modelled on a duplicate-free list: appends the element
unless it is already present. -/
def msAdd (l : List Nat) (x : Nat) : List Nat := if x ∈ l then l else l ++ [x]

/-- strings.Join with a comma separator. -/
def joinComma : List (List Char) → List Char
  | [] => []
  | [n] => n
  | n :: ns => n ++ ',' :: joinComma ns

/-- strings.Split on a comma separator. -/
def splitComma : List Char → List (List Char)
  | [] => [[]]
  | c :: rest =>
    if c = ',' then [] :: splitComma rest
    else
      match splitComma rest with
      | [] => [[c]]
      | g :: gs => (c :: g) :: gs

/-- sort.Strings: lexicographic sort of the collected name strings. -/
def sortStrings (l : List (List Char)) : List (List Char) :=
  List.insertionSort (· ≤ ·) l

/-- Character class [A-Z] of the symbol regex. -/
def isUpperB (c : Char) : Bool := 'A' ≤ c && c ≤ 'Z'

/-- Character class [0-9a-zx] of the symbol regex (x is inside a-z). -/
def isVerB (c : Char) : Bool := ('0' ≤ c && c ≤ '9') || ('a' ≤ c && c ≤ 'z')

/-- Character class [A-Z,] of the symbol regex. -/
def isUpCommaB (c : Char) : Bool := isUpperB c || c = ','

/-- Lowercase hexadecimal digit character for a nibble. -/
def hexDigitChar (n : Nat) : Char :=
  if n < 10 then Char.ofNat (48 + n) else Char.ofNat (87 + n)

/-- Fixed-width lowercase hexadecimal rendering of a number. -/
def hexFixed : Nat → Nat → List Char
  | 0, _ => []
  | w + 1, v => hexFixed w (v / 16) ++ [hexDigitChar (v % 16)]

/-- Value of one hexadecimal digit as strconv accepts it. -/
def hexVal (c : Char) : Option Nat :=
  if '0' ≤ c && c ≤ '9' then some (c.toNat - 48)
  else if 'a' ≤ c && c ≤ 'f' then some (c.toNat - 87)
  else if 'A' ≤ c && c ≤ 'F' then some (c.toNat - 55)
  else none

/-- Accumulating hexadecimal evaluation of a digit string. -/
def hexAcc : Nat → List Char → Option Nat
  | acc, [] => some acc
  | acc, c :: cs =>
    match hexVal c with
    | none => none
    | some d => hexAcc (acc * 16 + d) cs

/-- strconv.ParseUint(s, 16, 32): fails on an empty string, on a
non-hexadecimal character and on a value of 32 bits or more. -/
def parseHex32 (cs : List Char) : Option Nat :=
  if cs.isEmpty then none
  else
    match hexAcc 0 cs with
    | none => none
    | some v => if v < 2 ^ 32 then some v else none

/-- Modelled from the spec: Uint32ToBEBytes (outside these source files)
splits a 32-bit value into its four big-endian bytes. -/
def Uint32ToBEBytes (v : Nat) : List Nat :=
  [v / 2 ^ 24 % 256, v / 2 ^ 16 % 256, v / 2 ^ 8 % 256, v % 256]

/-- HeaderOptions.String: empty when no version is set, otherwise the
fmt %#x rendering of the four version bytes. -/
def hoText : Option Nat → List Char
  | none => []
  | some v => '0' :: 'x' :: ((Uint32ToBEBytes v).map (hexFixed 2)).flatten

/-- AbstractSymbol: packet type, optional QUIC version, and the set of
frame-type tags (modelled as the list of elements of the mapset). -/
structure AbstractSymbol where
  packetType : PacketType
  headerOptions : Option Nat
  frameTypes : List Nat
deriving DecidableEq

/-- AbstractSymbol.String: packet-type name, parenthesized header options,
and the bracketed comma-joined lexicographically sorted frame-type names
(the set iteration order is erased by the sort). -/
def AbstractSymbol.toText (as : AbstractSymbol) : List Char :=
  packetTypeToString as.packetType
    ++ '(' :: hoText as.headerOptions
    ++ ')' :: '[' :: joinComma (sortStrings (as.frameTypes.dedup.map ftName))
    ++ [']']

/-- The frames group of the regex: a nonempty [A-Z,]+ run closed by the
final bracket at the end of the input. -/
def splitFrames (r : List Char) : Option (List Char) :=
  let f := r.takeWhile isUpCommaB
  if f.isEmpty then none
  else
    match r.dropWhile isUpCommaB with
    | [']'] => some f
    | _ => none

/-- FindStringSubmatch of the anchored symbol regex: an uppercase run,
an optional parenthesized nonempty [0-9a-zx]+ group, and the bracketed
frames group; yields the three captured texts or none when the input does
not match. -/
def splitSym (cs : List Char) : Option (List Char × Option (List Char) × List Char) :=
  let p := cs.takeWhile isUpperB
  if p.isEmpty then none
  else
    match cs.dropWhile isUpperB with
    | '(' :: r2 =>
      let v := r2.takeWhile isVerB
      if v.isEmpty then none
      else
        match r2.dropWhile isVerB with
        | ')' :: '[' :: r4 => (splitFrames r4).map (fun f => (p, some v, f))
        | _ => none
    | '[' :: r2 => (splitFrames r2).map (fun f => (p, none, f))
    | _ => none

/-- Header-option handling of the parser: absent group means no version;
a present group is split on commas, the first entry has its first two
characters sliced away (a Go slice expression that panics, modelled as
none, when the entry is shorter than two characters) and is parsed as a
32-bit hexadecimal number, a parse error silently leaving the version
unset. -/
def parseHeaderOptions : Option (List Char) → Option (Option Nat)
  | none => some none
  | some vcs =>
    match splitComma vcs with
    | [] => some none
    | first :: _ =>
      if first.length < 2 then none
      else some (parseHex32 (first.drop 2))

/-- NewAbstractSymbolFromString: matches the regex (indexing the nil match
of a non-matching input panics, modelled as none), looks the packet-type
name up with the zero value as default, parses the header options and
folds the comma-separated frame names through FrameTypeFromString into a
fresh mapset. -/
def NewAbstractSymbolFromString (cs : List Char) : Option AbstractSymbol :=
  match splitSym cs with
  | none => none
  | some (pt, verOpt, frames) =>
    match parseHeaderOptions verOpt with
    | none => none
    | some ho =>
      some ⟨(lookupStr pt stringToPacketTypeList).getD goZeroPacketType, ho,
        (splitComma frames).foldl (fun s n => msAdd s (FrameTypeFromString n)) []⟩

/-- AbstractSet: a set of abstract symbols, modelled as the element list
of the underlying mapset. -/
abbrev AbstractSet := List AbstractSymbol

/-- AbstractSet.String: the empty set renders as the bracket pair; for a
nonempty set the source assigns members into a length-zero string slice,
an index-out-of-range panic, modelled as none. -/
def AbstractSet.toText (s : AbstractSet) : Option (List Char) :=
  if s.dedup.length = 0 then some ['[', ']'] else none

/-- Option-valued map over a list, failing when any element fails. -/
def mapOpt {α β : Type} (f : α → Option β) : List α → Option (List β)
  | [] => some []
  | x :: rest =>
    match f x, mapOpt f rest with
    | some y, some ys => some (y :: ys)
    | _, _ => none

/-- AbstractOrderedPair: one learning trace. -/
structure AbstractOrderedPair where
  abstractInputs : List AbstractSymbol
  abstractOutputs : List AbstractSet

/-- AbstractOrderedPair.String: the parenthesized pair of the bracketed
comma-joined input symbol texts and output set texts; a panic of any
output-set rendering propagates. -/
def AbstractOrderedPair.toText (p : AbstractOrderedPair) : Option (List Char) :=
  match mapOpt AbstractSet.toText p.abstractOutputs with
  | none => none
  | some outs =>
    some ('(' :: '[' :: (joinComma (p.abstractInputs.map AbstractSymbol.toText)
      ++ ']' :: ',' :: '[' :: (joinComma outs ++ [']', ')'])))

/-- Modelled from the spec: the concrete-side types are opaque to this
core beyond being stored and returned unchanged. -/
abbrev ConcreteSymbol := Nat

/-- Modelled from the spec: opaque concrete output set. -/
abbrev ConcreteSet := Nat

structure ConcreteOrderedPair where
  concreteInputs : List ConcreteSymbol
  concreteOutputs : List ConcreteSet
deriving DecidableEq

/-- AbstractConcreteMap: a Go map from the canonical text of an abstract
ordered pair to a concrete ordered pair, modelled as a lookup function. -/
def AbstractConcreteMap : Type := List Char → Option ConcreteOrderedPair

/-- The empty map. -/
def emptyACM : AbstractConcreteMap := fun _ => none

/-- AddOPs: renders the abstract pair to its canonical text (propagating
a rendering panic as none) and stores the concrete pair under that key,
overwriting any previous entry. -/
def AddOPs (acm : AbstractConcreteMap) (ap : AbstractOrderedPair)
    (cp : ConcreteOrderedPair) : Option AbstractConcreteMap :=
  (ap.toText).map (fun k => fun k2 => if k2 = k then some cp else acm k2)

/-- AddIOs: builds the abstract and concrete ordered pairs from the given
sequences and inserts them with AddOPs. -/
def AddIOs (acm : AbstractConcreteMap) (ains : List AbstractSymbol)
    (aouts : List AbstractSet) (cins : List ConcreteSymbol)
    (couts : List ConcreteSet) : Option AbstractConcreteMap :=
  AddOPs acm ⟨ains, aouts⟩ ⟨cins, couts⟩

/-- Go dynamic types involved in the NewAbstractSet type assertion. -/
inductive GoDynType
  | threadSafeSet
  | abstractSetType
deriving DecidableEq

/-- Modelled from the spec: mapset.NewSet is the constructor of the
external generic untyped set library; the dynamic type of its result is
the library own set implementation, never the adapter type AbstractSet. -/
def mapsetNewSetDynType : GoDynType := .threadSafeSet

/-- NewAbstractSet: the freshly created generic set is type-asserted to
AbstractSet; a Go type assertion succeeds only when the dynamic type is
exactly the asserted one, so the assertion panics on every call, modelled
as none. -/
def NewAbstractSet : Option AbstractSet :=
  if mapsetNewSetDynType = GoDynType.abstractSetType then some [] else none

/-!
Concrete text values used by the claim theorems.
-/

/-- The grammar-violating input INITIAL[QQQ]: INITIAL is in the vocabulary
but QQQ names no frame type. -/
def badSymbolText : List Char := "INITIAL[QQQ]".toList

/-- The canonical text of the empty abstract ordered pair. -/
def emptyPairKey : List Char := "([],[])".toList

/-!
Part 3: supporting lemmas for the canonical-text round-trip proof.
-/

lemma takeWhile_append_cons (p : Char → Bool) (a : List Char) (c : Char) (b : List Char)
    (ha : ∀ x ∈ a, p x = true) (hc : p c = false) :
    (a ++ c :: b).takeWhile p = a ∧ (a ++ c :: b).dropWhile p = c :: b := by
  induction a with
  | nil => simp [List.takeWhile_cons, List.dropWhile_cons, hc]
  | cons x xs ih =>
    have hx := ha x (by simp)
    have := ih (fun y hy => ha y (by simp [hy]))
    simp [List.takeWhile_cons, List.dropWhile_cons, hx, this.1, this.2]

lemma hexDigitChar_isVer (d : Nat) (h : d < 16) : isVerB (hexDigitChar d) = true := by
  interval_cases d <;> decide

lemma hexVal_hexDigitChar (d : Nat) (h : d < 16) : hexVal (hexDigitChar d) = some d := by
  interval_cases d <;> decide

lemma hexFixed_isVer (w : Nat) : ∀ (v : Nat), ∀ c ∈ hexFixed w v, isVerB c = true := by
  induction w with
  | zero => intro v c hc; simp [hexFixed] at hc
  | succ n ih =>
    intro v c hc
    simp only [hexFixed, List.mem_append, List.mem_singleton] at hc
    rcases hc with h | h
    · exact ih _ c h
    · subst h; exact hexDigitChar_isVer _ (Nat.mod_lt _ (by omega))

lemma hexFixed_ne_nil (w : Nat) (v : Nat) (h : 0 < w) : hexFixed w v ≠ [] := by
  cases w with
  | zero => omega
  | succ n => simp [hexFixed]

lemma hexAcc_append (xs ys : List Char) : ∀ acc, hexAcc acc (xs ++ ys)
    = match hexAcc acc xs with
      | none => none
      | some m => hexAcc m ys := by
  induction xs with
  | nil => intro acc; simp [hexAcc]
  | cons c cs ih =>
    intro acc
    simp only [List.cons_append, hexAcc]
    cases hexVal c with
    | none => rfl
    | some d => exact ih _

lemma hexAcc_hexFixed (w : Nat) : ∀ (acc v : Nat), v < 16 ^ w →
    hexAcc acc (hexFixed w v) = some (acc * 16 ^ w + v) := by
  induction w with
  | zero =>
    intro acc v hv
    simp [hexFixed, hexAcc]
    omega
  | succ n ih =>
    intro acc v hv
    have hdiv : v / 16 < 16 ^ n := by
      rw [Nat.div_lt_iff_lt_mul (by omega)]
      calc v < 16 ^ (n + 1) := hv
        _ = 16 ^ n * 16 := by rw [pow_succ]
    simp only [hexFixed]
    rw [hexAcc_append, ih acc (v / 16) hdiv]
    simp only [hexAcc, hexVal_hexDigitChar (v % 16) (Nat.mod_lt _ (by omega))]
    congr 1
    have h1 : (acc * 16 ^ n + v / 16) * 16 + v % 16
        = acc * (16 ^ n * 16) + (16 * (v / 16) + v % 16) := by ring
    rw [h1, Nat.div_add_mod, pow_succ]

lemma parseHex32_hexFixed8 (v : Nat) (h : v < 2 ^ 32) :
    parseHex32 (hexFixed 8 v) = some v := by
  have h16 : v < 16 ^ 8 := by norm_num at h ⊢; omega
  unfold parseHex32
  rw [List.isEmpty_eq_false.mpr (hexFixed_ne_nil 8 v (by omega))]
  simp only [hexAcc_hexFixed 8 0 v h16, Nat.zero_mul, Nat.zero_add]
  have : v < 2 ^ 32 := h
  norm_num at this
  simp [this]

lemma hexFixed_add (a b : Nat) : ∀ v, hexFixed (a + b) v
    = hexFixed a (v / 16 ^ b) ++ hexFixed b (v % 16 ^ b) := by
  induction b with
  | zero => intro v; simp [hexFixed]
  | succ n ih =>
    intro v
    have e1 : a + (n + 1) = (a + n) + 1 := by omega
    rw [e1]
    simp only [hexFixed]
    rw [ih (v / 16)]
    have e2 : v / 16 / 16 ^ n = v / 16 ^ (n + 1) := by
      rw [Nat.div_div_eq_div_mul, pow_succ, mul_comm (16 ^ n) 16]
    have e3 : v / 16 % 16 ^ n = v % 16 ^ (n + 1) / 16 := by
      rw [pow_succ, mul_comm (16 ^ n) 16, Nat.mod_mul_right_div_self]
    have e4 : v % 16 = v % 16 ^ (n + 1) % 16 := by
      rw [Nat.mod_mod_of_dvd v (dvd_pow_self 16 (Nat.succ_ne_zero n))]
    rw [e2, e3, e4, List.append_assoc]

lemma hoText_some_eq (v : Nat) (h : v < 2 ^ 32) :
    hoText (some v) = '0' :: 'x' :: hexFixed 8 v := by
  have hv : v < 4294967296 := by omega
  have s1 := hexFixed_add 2 6 v
  have s2 := hexFixed_add 2 4 (v % 16777216)
  have s3 := hexFixed_add 2 2 (v % 16777216 % 65536)
  norm_num at s1 s2 s3
  have a1 : v / 2 ^ 24 % 256 = v / 16777216 := by omega
  have a2 : v / 2 ^ 16 % 256 = v % 16777216 / 65536 := by omega
  have a3 : v / 2 ^ 8 % 256 = v % 65536 / 256 := by omega
  simp only [hoText, Uint32ToBEBytes, List.map_cons, List.map_nil, List.flatten]
  rw [a1, a2, a3, s1, s2, s3]
  simp [List.append_assoc]

lemma splitComma_no_comma (n : List Char) (h : ',' ∉ n) : splitComma n = [n] := by
  induction n with
  | nil => rfl
  | cons c cs ih =>
    have hc : c ≠ ',' := fun e => h (by simp [e])
    have ht := ih (fun e => h (by simp [e]))
    rw [splitComma, if_neg hc, ht]

lemma splitComma_append_comma (n tail : List Char) (h : ',' ∉ n) :
    splitComma (n ++ ',' :: tail) = n :: splitComma tail := by
  induction n with
  | nil => simp [splitComma]
  | cons c cs ih =>
    have hc : c ≠ ',' := fun e => h (by simp [e])
    have ht := ih (fun e => h (by simp [e]))
    rw [List.cons_append, splitComma, if_neg hc, ht]

lemma splitComma_joinComma (ns : List (List Char)) (hne : ns ≠ [])
    (h : ∀ n ∈ ns, ',' ∉ n) : splitComma (joinComma ns) = ns := by
  induction ns with
  | nil => exact absurd rfl hne
  | cons n rest ih =>
    cases rest with
    | nil => exact splitComma_no_comma n (h n (by simp))
    | cons m tl =>
      have hj : joinComma (n :: m :: tl) = n ++ ',' :: joinComma (m :: tl) := rfl
      rw [hj, splitComma_append_comma n _ (h n (by simp))]
      rw [ih (by simp) (fun x hx => h x (by simp [hx]))]

lemma joinComma_chars (ns : List (List Char))
    (h : ∀ n ∈ ns, ∀ c ∈ n, isUpperB c = true) :
    ∀ c ∈ joinComma ns, isUpCommaB c = true := by
  induction ns with
  | nil => intro c hc; simp [joinComma] at hc
  | cons n rest ih =>
    intro c hc
    cases rest with
    | nil => simp [isUpCommaB, h n (by simp) c hc]
    | cons m tl =>
      have hj : joinComma (n :: m :: tl) = n ++ ',' :: joinComma (m :: tl) := rfl
      rw [hj] at hc
      rcases List.mem_append.mp hc with h1 | h1
      · simp [isUpCommaB, h n (by simp) c h1]
      · rcases List.mem_cons.mp h1 with h2 | h2
        · subst h2; decide
        · exact ih (fun x hx => h x (by simp [hx])) c h2

lemma joinComma_ne_nil (ns : List (List Char)) (hne : ns ≠ [])
    (h : ∀ n ∈ ns, n ≠ []) : joinComma ns ≠ [] := by
  cases ns with
  | nil => exact absurd rfl hne
  | cons n rest =>
    cases rest with
    | nil => exact h n (by simp)
    | cons m tl =>
      have hj : joinComma (n :: m :: tl) = n ++ ',' :: joinComma (m :: tl) := rfl
      rw [hj]
      simp

lemma packetTypeToString_facts (p : PacketType) :
    packetTypeToString p ≠ [] ∧ (∀ c ∈ packetTypeToString p, isUpperB c = true)
      ∧ lookupStr (packetTypeToString p) stringToPacketTypeList = some p := by
  cases p <;> refine ⟨by decide, by decide, by decide⟩

lemma ftName_facts : ∀ t ∈ knownTags, ftName t ≠ []
    ∧ (∀ c ∈ ftName t, isUpperB c = true) ∧ FrameTypeFromString (ftName t) = t := by
  decide

lemma isUpperB_no_comma {n : List Char} (h : ∀ c ∈ n, isUpperB c = true) : ',' ∉ n :=
  fun hc => by have := h ',' hc; simp [isUpperB] at this

lemma isVerB_no_comma {n : List Char} (h : ∀ c ∈ n, isVerB c = true) : ',' ∉ n :=
  fun hc => by have := h ',' hc; simp [isVerB] at this

lemma sortStrings_eq_of_perm {l1 l2 : List (List Char)} (h : l1.Perm l2) :
    sortStrings l1 = sortStrings l2 := by
  refine List.eq_of_perm_of_sorted
    (((List.perm_insertionSort _ l1).trans h).trans (List.perm_insertionSort _ l2).symm)
    (List.sorted_insertionSort _ l1) (List.sorted_insertionSort _ l2)

lemma sortStrings_perm (l : List (List Char)) : (sortStrings l).Perm l :=
  List.perm_insertionSort _ l

lemma msAdd_toFinset (acc : List Nat) (x : Nat) :
    (msAdd acc x).toFinset = insert x acc.toFinset := by
  unfold msAdd
  split_ifs with h
  · ext y
    simp only [List.mem_toFinset, Finset.mem_insert]
    constructor
    · exact fun hy => Or.inr hy
    · rintro (rfl | hy)
      · exact h
      · exact hy
  · ext y
    simp [or_comm]

lemma foldl_msAdd_toFinset (xs : List Nat) : ∀ acc : List Nat,
    (xs.foldl msAdd acc).toFinset = acc.toFinset ∪ xs.toFinset := by
  induction xs with
  | nil => intro acc; simp
  | cons x tl ih =>
    intro acc
    rw [List.foldl_cons, ih, msAdd_toFinset]
    ext y
    simp only [Finset.mem_union, Finset.mem_insert, List.mem_toFinset, List.mem_cons]
    tauto

lemma splitSym_eq (ptStr hoStr ftext : List Char)
    (h1 : ptStr ≠ []) (h2 : ∀ c ∈ ptStr, isUpperB c = true)
    (h3 : hoStr ≠ []) (h4 : ∀ c ∈ hoStr, isVerB c = true)
    (h5 : ftext ≠ []) (h6 : ∀ c ∈ ftext, isUpCommaB c = true) :
    splitSym (ptStr ++ ('(' :: (hoStr ++ (')' :: ('[' :: (ftext ++ [']']))))))
      = some (ptStr, some hoStr, ftext) := by
  have t1 := takeWhile_append_cons isUpperB ptStr '('
    (hoStr ++ (')' :: ('[' :: (ftext ++ [']'])))) h2 (by decide)
  have t2 := takeWhile_append_cons isVerB hoStr ')' ('[' :: (ftext ++ [']'])) h4 (by decide)
  have t3 := takeWhile_append_cons isUpCommaB ftext ']' [] h6 (by decide)
  simp only [splitSym, splitFrames, t1.1, t1.2, t2.1, t2.2, t3.1, t3.2,
    List.isEmpty_eq_false.mpr h1, List.isEmpty_eq_false.mpr h3,
    List.isEmpty_eq_false.mpr h5]
  rfl

lemma parseHeaderOptions_eq (vcs : List Char) (h : ',' ∉ vcs)
    (hlen : ¬ vcs.length < 2) :
    parseHeaderOptions (some vcs) = some (parseHex32 (vcs.drop 2)) := by
  simp only [parseHeaderOptions, splitComma_no_comma vcs h]
  rw [if_neg hlen]

/-- Claim C6 (amended): for every abstract symbol whose header version is
present (a 32-bit value) and whose frame-type set is a nonempty set of
known frame-type tags, parsing the canonical text yields a symbol with the
same packet type, the same header version and the same frame-type set;
and the canonical text never depends on the insertion order or duplication
of the frame-type list underlying the set.  (The unamended claim fails for
symbols without a header version and for the empty frame-type set, whose
canonical texts the parser regex rejects.) -/
theorem abstractSymbol_roundtrip_and_stability
    (p : PacketType) (ver : Nat) (l : List Nat)
    (hver : ver < 2 ^ 32) (hl : l ≠ []) (hknown : ∀ t ∈ l, t ∈ knownTags) :
    (∃ w, NewAbstractSymbolFromString (AbstractSymbol.toText ⟨p, some ver, l⟩) = some w
      ∧ w.packetType = p ∧ w.headerOptions = some ver
      ∧ w.frameTypes.toFinset = l.toFinset) ∧
    (∀ (p2 : PacketType) (ho2 : Option Nat) (l1 l2 : List Nat),
      l1.toFinset = l2.toFinset →
      AbstractSymbol.toText ⟨p2, ho2, l1⟩ = AbstractSymbol.toText ⟨p2, ho2, l2⟩) := by
  constructor
  · -- round trip
    obtain ⟨hpt1, hpt2, hpt3⟩ := packetTypeToString_facts p
    have hho : hoText (some ver) = '0' :: 'x' :: hexFixed 8 ver := hoText_some_eq ver hver
    have hho1 : hoText (some ver) ≠ [] := by rw [hho]; simp
    have hho2 : ∀ c ∈ hoText (some ver), isVerB c = true := by
      rw [hho]
      intro c hc
      rcases List.mem_cons.mp hc with rfl | hc
      · decide
      rcases List.mem_cons.mp hc with rfl | hc
      · decide
      · exact hexFixed_isVer 8 ver c hc
    have hdl : l.dedup ≠ [] := by
      intro e
      exact hl ((List.dedup_eq_nil l).mp e)
    have hmem : ∀ n ∈ sortStrings (l.dedup.map ftName),
        n ≠ [] ∧ ∀ c ∈ n, isUpperB c = true := by
      intro n hn
      have hn2 : n ∈ l.dedup.map ftName := (sortStrings_perm _).mem_iff.mp hn
      obtain ⟨t, ht, rfl⟩ := List.mem_map.mp hn2
      obtain ⟨f1, f2, _⟩ := ftName_facts t (hknown t (List.mem_dedup.mp ht))
      exact ⟨f1, f2⟩
    have hnamesne : sortStrings (l.dedup.map ftName) ≠ [] := by
      intro e
      have hlen2 := (sortStrings_perm (l.dedup.map ftName)).length_eq
      rw [e] at hlen2
      simp only [List.length_nil] at hlen2
      have := (List.length_eq_zero.mp hlen2.symm)
      rw [List.map_eq_nil_iff] at this
      exact hdl this
    have hft1 : joinComma (sortStrings (l.dedup.map ftName)) ≠ [] :=
      joinComma_ne_nil _ hnamesne (fun n hn => (hmem n hn).1)
    have hft2 : ∀ c ∈ joinComma (sortStrings (l.dedup.map ftName)),
        isUpCommaB c = true :=
      joinComma_chars _ (fun n hn => (hmem n hn).2)
    have htext : AbstractSymbol.toText ⟨p, some ver, l⟩
        = packetTypeToString p ++ ('(' :: (hoText (some ver)
          ++ (')' :: ('[' :: (joinComma (sortStrings (l.dedup.map ftName))
            ++ [']']))))) := by
      simp only [AbstractSymbol.toText, List.cons_append, List.append_assoc]
    have hsplit := splitSym_eq (packetTypeToString p) (hoText (some ver))
      (joinComma (sortStrings (l.dedup.map ftName))) hpt1 hpt2 hho1 hho2 hft1 hft2
    have hlen : ¬ ((hoText (some ver)).length < 2) := by
      rw [hho]
      simp only [List.length_cons]
      omega
    have hpho : parseHeaderOptions (some (hoText (some ver))) = some (some ver) := by
      rw [parseHeaderOptions_eq _ (isVerB_no_comma hho2) hlen, hho]
      simp only [List.drop_succ_cons, List.drop_zero]
      rw [parseHex32_hexFixed8 ver hver]
    have hcomma : splitComma (joinComma (sortStrings (l.dedup.map ftName)))
        = sortStrings (l.dedup.map ftName) :=
      splitComma_joinComma _ hnamesne
        (fun n hn => isUpperB_no_comma (hmem n hn).2)
    have hmain : NewAbstractSymbolFromString (AbstractSymbol.toText ⟨p, some ver, l⟩)
        = some ⟨p, some ver, (sortStrings (l.dedup.map ftName)).foldl
            (fun s n => msAdd s (FrameTypeFromString n)) []⟩ := by
      rw [htext]
      simp only [NewAbstractSymbolFromString, hsplit, hpho, hcomma, hpt3,
        Option.getD_some]
    refine ⟨_, hmain, rfl, rfl, ?_⟩
    show ((sortStrings (l.dedup.map ftName)).foldl
      (fun s n => msAdd s (FrameTypeFromString n)) []).toFinset = l.toFinset
    rw [show ((sortStrings (l.dedup.map ftName)).foldl
        (fun s n => msAdd s (FrameTypeFromString n)) [])
        = ((sortStrings (l.dedup.map ftName)).map FrameTypeFromString).foldl
            msAdd [] from (List.foldl_map _ _ _ _).symm]
    rw [foldl_msAdd_toFinset]
    have hperm : ((sortStrings (l.dedup.map ftName)).map FrameTypeFromString).Perm
        ((l.dedup.map ftName).map FrameTypeFromString) :=
      (sortStrings_perm _).map _
    rw [List.toFinset_eq_of_perm _ _ hperm, List.map_map]
    have hid : l.dedup.map (FrameTypeFromString ∘ ftName) = l.dedup := by
      have hc : ∀ t ∈ l.dedup, (FrameTypeFromString ∘ ftName) t = t := by
        intro t ht
        exact (ftName_facts t (hknown t (List.mem_dedup.mp ht))).2.2
      rw [List.map_congr_left hc]
      simp
    rw [hid]
    ext y
    simp [List.mem_dedup]
  · -- stability under reordering and duplication of the frame-type set
    intro p2 ho2 l1 l2 h
    have hperm : l1.dedup.Perm l2.dedup := (List.toFinset_eq_iff_perm_dedup).mp h
    have hs : sortStrings (l1.dedup.map ftName) = sortStrings (l2.dedup.map ftName) :=
      sortStrings_eq_of_perm (hperm.map ftName)
    simp only [AbstractSymbol.toText, hs]

/-!
Part 4: the claim theorems.
-/

/-- Claim C1 (counterexample evaluation): decode after encode is not the
identity on every frame variant.  For the acknowledgment frame that the
NewAckFrame helper itself builds (a single gap-less block, block count
zero), re-decoding its own encoding loses the first block: the decoder
reads it and discards it, so the decoded ackBlocks list is empty. -/
theorem ack_decode_encode_not_identity :
    (ReadAckFrame (AckFrame.writeTo ⟨1, 0, 0, [⟨0, 5⟩]⟩)).1 ≠ ⟨1, 0, 0, [⟨0, 5⟩]⟩ := by
  decide

/-- Claim C2 (counterexample evaluation): the dispatcher has no case for
the Pong tag byte 0x0d, so instead of selecting the Pong variant it falls
to the default branch and panics with an unknown-frame-type message. -/
theorem newFrame_pong_tag_panics : NewFrame [PongType] = .unknownPanic 0x0d := by
  decide

/-- Claim C3 (amended): the dispatcher returns nil exactly when the source
is exhausted before any byte of a new frame, but a source exhausted in the
middle of the fields of a frame is not an error: the per-field read errors
are discarded and the missing fields are left zero-valued, a frame still
being returned (here a ResetStream decoded from the lone tag byte). -/
theorem newFrame_nil_on_empty_and_truncation_zero_fills :
    NewFrame [] = .nilEOF ∧ NewFrame [ResetStreamType] = .ok (.reset ⟨0, 0, 0⟩) [] := by
  decide

/-- Claim C3 (counterexample): decoding the truncated ResetStream encoding
that consists of the tag byte alone does not fail; it yields a zero-filled
frame with no error signal. -/
theorem truncated_resetStream_decodes_without_error :
    NewFrame [ResetStreamType] = .ok (.reset ⟨0, 0, 0⟩) [] := by
  decide

/-- Claim C4 (counterexample evaluation): decoding a Stream frame with the
LEN flag set and length 1 leaves the payload byte unconsumed (the cursor
stops before it) and the decoded streamData empty, instead of consuming
exactly length bytes and storing them. -/
theorem streamFrame_decode_ignores_payload :
    ReadStreamFrame [0x12, 1, 1, 0xAA] = (⟨false, true, false, 1, 0, 1, []⟩, [0xAA]) := by
  decide

/-- Claim C5 (counterexample evaluation): after reading maximumData as the
varint 5, the MaxData decoder issues a second, fixed-width 8-byte read
into the same field; with eight more bytes available the varint value is
overwritten by their big-endian value and the cursor advances nine bytes
past the tag instead of one. -/
theorem maxData_decode_overwrites_varint :
    NewMaxDataFrame [MaxDataType, 5, 1, 2, 3, 4, 5, 6, 7, 8]
      = (⟨0x0102030405060708⟩, []) := by
  decide

/-- Claim C6 (counterexample): for a symbol without a header version the
canonical text carries an empty parenthesis group, which the anchored
regex of the parser cannot match (its optional group requires a nonempty
version), so parsing the canonical text panics instead of returning the
symbol. -/
theorem symbol_roundtrip_fails_without_version :
    NewAbstractSymbolFromString (AbstractSymbol.toText ⟨.ShortHeaderPacket, none, [AckType]⟩)
      ≠ some ⟨.ShortHeaderPacket, none, [AckType]⟩ := by
  decide

/-- Claim C7 (counterexample): on an input that violates the grammar only
through an unknown frame-type name, the parser does not fail at all: the
regex matches, the unknown name silently maps to the zero frame type
(0x00, the padding tag) and a defaulted symbol is returned. -/
theorem parser_silently_defaults_unknown_frame_name :
    NewAbstractSymbolFromString badSymbolText
      = some ⟨.Initial, none, [PaddingFrameType]⟩ := by
  decide

/-- Claim C7 (amended): an input whose shape does not match the regex
makes the parser panic while indexing the nil match (no format error value
is produced), while an input of matching shape is accepted even when its
names are outside the vocabulary, the unknown names silently defaulting
(here QQQ becomes the zero frame type). -/
theorem parser_panics_on_shape_mismatch_and_defaults_on_unknown_names :
    NewAbstractSymbolFromString ("INITIAL".toList) = none ∧
    NewAbstractSymbolFromString badSymbolText
      = some ⟨.Initial, none, [PaddingFrameType]⟩ := by
  decide

/-- Claim C8 (counterexample evaluation): rendering the empty abstract set
yields the bracket pair, but rendering any nonempty set panics: the
member texts are assigned into a string slice created with length zero,
an index-out-of-range fault, so no sorted joined rendering is produced. -/
theorem abstractSet_text_empty_ok_nonempty_panics :
    AbstractSet.toText ([] : AbstractSet) = some ['[', ']'] ∧
    AbstractSet.toText [⟨.Initial, none, []⟩] = none := by
  decide

/-- Claim C10: the AbstractSet constructor never returns a value: the type
assertion from the generic set to AbstractSet fails on every call. -/
theorem newAbstractSet_always_fails : NewAbstractSet = none := rfl

/-- Claim C9: after AddIOs the entry under the canonical text of the
abstract pair holds exactly the given concrete pair, a second AddIOs under
the same canonical-text key with different concrete values replaces the
first, and in both states every other key is untouched. -/
theorem addIOs_stores_overwrites_and_preserves
    (acm : AbstractConcreteMap) (ains : List AbstractSymbol)
    (aouts : List AbstractSet) (cins couts cins2 couts2 : List Nat)
    (k : List Char)
    (hk : AbstractOrderedPair.toText ⟨ains, aouts⟩ = some k) :
    ∃ m1, AddIOs acm ains aouts cins couts = some m1 ∧
      m1 k = some ⟨cins, couts⟩ ∧
      (∀ k2, k2 ≠ k → m1 k2 = acm k2) ∧
      ∃ m2, AddIOs m1 ains aouts cins2 couts2 = some m2 ∧
        m2 k = some ⟨cins2, couts2⟩ ∧
        ∀ k2, k2 ≠ k → m2 k2 = acm k2 := by
  refine ⟨_, by rw [AddIOs, AddOPs, hk]; rfl, by simp, fun k2 h => by simp [h], ?_⟩
  refine ⟨_, by rw [AddIOs, AddOPs, hk]; rfl, by simp, fun k2 h => by simp [h]⟩

/-- Claim C9 (witness): the map-fidelity theorem applied to the empty
abstract pair, whose canonical text is defined, with two successive
insertions of different concrete pairs. -/
theorem addIOs_stores_overwrites_and_preserves_witness :
    AbstractOrderedPair.toText ⟨[], []⟩ = some emptyPairKey ∧
    ∃ m1, AddIOs emptyACM [] [] [1] [2] = some m1 ∧
      m1 emptyPairKey = some ⟨[1], [2]⟩ ∧
      (∀ k2, k2 ≠ emptyPairKey → m1 k2 = emptyACM k2) ∧
      ∃ m2, AddIOs m1 [] [] [3] [4] = some m2 ∧
        m2 emptyPairKey = some ⟨[3], [4]⟩ ∧
        ∀ k2, k2 ≠ emptyPairKey → m2 k2 = emptyACM k2 :=
  ⟨by decide, addIOs_stores_overwrites_and_preserves emptyACM [] [] [1] [2] [3] [4]
    emptyPairKey (by decide)⟩

/-- Claim C6 (witness): the amended round-trip and stability theorem
applied to the symbol INITIAL(0xff00001d)[ACK], discharging each
hypothesis at that concrete input. -/
theorem abstractSymbol_roundtrip_and_stability_witness :
    0xff00001d < 2 ^ 32 ∧ ([AckType] : List Nat) ≠ []
      ∧ (∀ t ∈ ([AckType] : List Nat), t ∈ knownTags)
      ∧ ((∃ w, NewAbstractSymbolFromString
            (AbstractSymbol.toText ⟨.Initial, some 0xff00001d, [AckType]⟩) = some w
          ∧ w.packetType = .Initial ∧ w.headerOptions = some 0xff00001d
          ∧ w.frameTypes.toFinset = ([AckType] : List Nat).toFinset) ∧
        (∀ (p2 : PacketType) (ho2 : Option Nat) (l1 l2 : List Nat),
          l1.toFinset = l2.toFinset →
          AbstractSymbol.toText ⟨p2, ho2, l1⟩ = AbstractSymbol.toText ⟨p2, ho2, l2⟩)) :=
  ⟨by decide, by decide, by decide,
    abstractSymbol_roundtrip_and_stability .Initial 0xff00001d [AckType]
      (by decide) (by decide) (by decide)⟩
